import Mathlib

/-!
Verification development for the decluttering-app backend
(`functions/index.js`): a shallow embedding of the context-assembly,
response-recovery and space-analysis orchestration logic, together with
theorems settling the frozen claims about it.

Conventions of the embedding:
* JavaScript strings are Lean `String`s (operated on as `List Char` where
  structural recursion is needed).
* `JSON.parse` is modelled by `jsonParse`, an executable parser for the
  JSON grammar (numbers are kept as their raw source text, which is all
  the embedded code ever inspects).
* JavaScript truthiness on optional string inputs is `truthyStr`
  (absent and `""` are falsy).
* Handlers are pure functions from a request plus an environment (the
  outcomes of the provider calls and store writes, which are the I/O
  boundary) to a response plus the list of successfully performed
  provider calls / store writes.
-/

/-! ### JSON values and a JSON.parse model -/

/-- A JSON value.  Numbers keep their raw textual form: the embedded code
never does arithmetic on parsed numbers, it only tests truthiness. -/
inductive Json where
  | null
  | bool (b : Bool)
  | num (raw : String)
  | str (s : String)
  | arr (elems : List Json)
  | obj (fields : List (String × Json))

/-- JSON whitespace characters (space, tab, line feed, carriage return). -/
def isJsonWs (c : Char) : Bool := c = ' ' || c = '\t' || c = '\n' || c = '\r'

/-- Drop leading JSON whitespace. -/
def skipWs : List Char → List Char
  | [] => []
  | c :: rest => if isJsonWs c then skipWs rest else c :: rest

/-- ASCII digit test. -/
def isDigit (c : Char) : Bool := '0' ≤ c && c ≤ '9'

/-- ASCII hexadecimal digit test. -/
def isHex (c : Char) : Bool :=
  isDigit c || ('a' ≤ c && c ≤ 'f') || ('A' ≤ c && c ≤ 'F')

/-- Numeric value of a hexadecimal digit. -/
def hexVal (c : Char) : Nat :=
  if isDigit c then c.toNat - 48
  else if 'a' ≤ c && c ≤ 'f' then c.toNat - 87
  else c.toNat - 55

/-- Parse the body of a JSON string (after the opening quote), handling
the escape sequences of the JSON grammar; returns the decoded characters
and the input remaining after the closing quote. -/
def parseStrBody : List Char → Option (List Char × List Char)
  | [] => none
  | '"' :: rest => some ([], rest)
  | '\\' :: e :: rest =>
    match e, rest with
    | '"', r => (fun p => ('"' :: p.1, p.2)) <$> parseStrBody r
    | '\\', r => (fun p => ('\\' :: p.1, p.2)) <$> parseStrBody r
    | '/', r => (fun p => ('/' :: p.1, p.2)) <$> parseStrBody r
    | 'b', r => (fun p => (Char.ofNat 8 :: p.1, p.2)) <$> parseStrBody r
    | 'f', r => (fun p => (Char.ofNat 12 :: p.1, p.2)) <$> parseStrBody r
    | 'n', r => (fun p => ('\n' :: p.1, p.2)) <$> parseStrBody r
    | 'r', r => (fun p => ('\r' :: p.1, p.2)) <$> parseStrBody r
    | 't', r => (fun p => ('\t' :: p.1, p.2)) <$> parseStrBody r
    | 'u', h1 :: h2 :: h3 :: h4 :: r4 =>
      if isHex h1 && isHex h2 && isHex h3 && isHex h4 then
        (fun p =>
          (Char.ofNat (((hexVal h1 * 16 + hexVal h2) * 16 + hexVal h3) * 16 + hexVal h4) :: p.1,
            p.2)) <$> parseStrBody r4
      else none
    | _, _ => none
  | c :: rest => if c.toNat < 32 then none else (fun p => (c :: p.1, p.2)) <$> parseStrBody rest

/-- Split a maximal run of digits off the front of the input. -/
def takeDigits : List Char → (List Char × List Char)
  | [] => ([], [])
  | c :: rest =>
    if isDigit c then
      let p := takeDigits rest
      (c :: p.1, p.2)
    else ([], c :: rest)

/-- Integer part of a JSON number: `0`, or a nonzero digit followed by
digits (leading zeros are rejected, as `JSON.parse` does). -/
def parseIntDigits : List Char → Option (List Char × List Char)
  | [] => none
  | c :: rest =>
    if c = '0' then some (['0'], rest)
    else if isDigit c then
      let p := takeDigits rest
      some (c :: p.1, p.2)
    else none

/-- Optional fraction part of a JSON number (consumed only when a dot
with at least one digit follows). -/
def parseFracPart (cs : List Char) : List Char × List Char :=
  match cs with
  | '.' :: rest =>
    match takeDigits rest with
    | ([], _) => ([], cs)
    | (ds, r) => ('.' :: ds, r)
  | _ => ([], cs)

/-- Optional exponent part of a JSON number. -/
def parseExpPart (cs : List Char) : List Char × List Char :=
  match cs with
  | e :: rest =>
    if e = 'e' || e = 'E' then
      match rest with
      | s :: rest2 =>
        if s = '+' || s = '-' then
          match takeDigits rest2 with
          | ([], _) => ([], cs)
          | (ds, r) => (e :: s :: ds, r)
        else
          match takeDigits rest with
          | ([], _) => ([], cs)
          | (ds, r) => (e :: ds, r)
      | [] => ([], cs)
    else ([], cs)
  | [] => ([], cs)

/-- Parse a JSON number, returning its raw characters and the rest. -/
def parseNum (cs : List Char) : Option (List Char × List Char) :=
  match cs with
  | '-' :: rest =>
    match parseIntDigits rest with
    | none => none
    | some (ip, r1) =>
      let f := parseFracPart r1
      let e := parseExpPart f.2
      some ('-' :: ip ++ f.1 ++ e.1, e.2)
  | _ =>
    match parseIntDigits cs with
    | none => none
    | some (ip, r1) =>
      let f := parseFracPart r1
      let e := parseExpPart f.2
      some (ip ++ f.1 ++ e.1, e.2)

mutual

/-- Fuel-indexed JSON value parser (the fuel makes the mutual recursion
structural, so concrete runs reduce definitionally). -/
def pVal : Nat → List Char → Option (Json × List Char)
  | 0, _ => none
  | _ + 1, [] => none
  | fuel + 1, c :: rest =>
    match c, rest with
    | 'n', 'u' :: 'l' :: 'l' :: r => some (Json.null, r)
    | 't', 'r' :: 'u' :: 'e' :: r => some (Json.bool true, r)
    | 'f', 'a' :: 'l' :: 's' :: 'e' :: r => some (Json.bool false, r)
    | '"', r =>
      match parseStrBody r with
      | some (body, r2) => some (Json.str (String.mk body), r2)
      | none => none
    | '[', r =>
      match skipWs r with
      | ']' :: r2 => some (Json.arr [], r2)
      | r1 =>
        match pElems fuel r1 with
        | some (es, r2) => some (Json.arr es, r2)
        | none => none
    | '{', r =>
      match skipWs r with
      | '}' :: r2 => some (Json.obj [], r2)
      | r1 =>
        match pMembers fuel r1 with
        | some (ms, r2) => some (Json.obj ms, r2)
        | none => none
    | _, _ =>
      match parseNum (c :: rest) with
      | some (raw, r2) => some (Json.num (String.mk raw), r2)
      | none => none

/-- Fuel-indexed parser for the comma-separated elements of a nonempty
JSON array, up to and including the closing bracket. -/
def pElems : Nat → List Char → Option (List Json × List Char)
  | 0, _ => none
  | fuel + 1, cs =>
    match pVal fuel cs with
    | none => none
    | some (j, r1) =>
      match skipWs r1 with
      | ',' :: r2 =>
        match pElems fuel (skipWs r2) with
        | some (es, r3) => some (j :: es, r3)
        | none => none
      | ']' :: r2 => some ([j], r2)
      | _ => none

/-- Fuel-indexed parser for the members of a nonempty JSON object, up to
and including the closing brace. -/
def pMembers : Nat → List Char → Option (List (String × Json) × List Char)
  | 0, _ => none
  | fuel + 1, cs =>
    match cs with
    | '"' :: r =>
      match parseStrBody r with
      | none => none
      | some (key, r1) =>
        match skipWs r1 with
        | ':' :: r2 =>
          match pVal fuel (skipWs r2) with
          | none => none
          | some (j, r3) =>
            match skipWs r3 with
            | ',' :: r4 =>
              match pMembers fuel (skipWs r4) with
              | some (ms, r5) => some ((String.mk key, j) :: ms, r5)
              | none => none
            | '}' :: r4 => some ([(String.mk key, j)], r4)
            | _ => none
        | _ => none
    | _ => none

end

/-- Model of `JSON.parse`: parse one JSON value, allowing surrounding
whitespace and rejecting any trailing input.  The fuel bound exceeds the
maximal recursion depth (at most two nested calls per consumed
character), so it never cuts a parse short. -/
def jsonParse (s : String) : Option Json :=
  let cs := skipWs s.toList
  match pVal (2 * cs.length + 8) cs with
  | some (j, rest) => if skipWs rest = [] then some j else none
  | none => none

/-! ### Stage-3 result recovery (`analyzeSpace`, parse block)

The JS code is:
```
try { parsed = JSON.parse(analysisText); }
catch (parseErr) {
  const jsonMatch = analysisText.match(/\x7b[\s\S]*\x7d/);
  if (jsonMatch) { parsed = JSON.parse(jsonMatch[0]); }
  else { res.status(502).json({ error: "Analysis returned invalid format" }); return; }
}
```
The regex match runs from the first `x7b` brace to the last `x7d` brace
of the text (the quantifier is greedy); if re-parsing that span throws,
the exception escapes to the outer catch (a 500, not the 502). -/

/-- Suffix of the input starting at its first `'{'` (empty if none). -/
def dropUntilOpen : List Char → List Char
  | [] => []
  | c :: rest => if c = '{' then c :: rest else dropUntilOpen rest

/-- The prefix of the input ending at its last `'}'`, or `none` if the
input contains no `'}'`. -/
def takeToLastClose : List Char → Option (List Char)
  | [] => none
  | c :: rest =>
    match takeToLastClose rest with
    | some t => some (c :: t)
    | none => if c = '}' then some [c] else none

/-- The span matched by the greedy regex `/\x7b[\s\S]*\x7d/`: from the
first `'{'` of the text to the last `'}'` after it, when both exist. -/
def greedySpan (cs : List Char) : Option (List Char) :=
  match dropUntilOpen cs with
  | [] => none
  | c :: rest =>
    match takeToLastClose rest with
    | some t => some (c :: t)
    | none => none

/-- Outcome of the stage-3 parse block. -/
inductive Stage3 where
  | parsedOk (j : Json)
  | malformed
  | exception

/-- Stage-3 result recovery: direct `JSON.parse` first; on failure parse
the greedy brace span; no span at all is the 502 `malformed` outcome,
while a span that itself fails to parse escapes as an uncaught
`exception` (the endpoint's generic 500). -/
def stage3 (text : String) : Stage3 :=
  match jsonParse text with
  | some j => .parsedOk j
  | none =>
    match greedySpan text.toList with
    | none => .malformed
    | some span =>
      match jsonParse (String.mk span) with
      | some j => .parsedOk j
      | none => .exception

/-! ### Post-parse field extraction

The JS code reads `parsed.visibleItems || []` (and the three other list
fields) from the recovered value.  Property access on `null` throws; a
missing or falsy field defaults to `[]`; a truthy value is used as an
array of strings (anything else blows up further down and surfaces as
the endpoint's generic 500, modelled as `.error`). -/

/-- JS property read on a parsed JSON value: `none` is `undefined`.
Duplicate keys in a JSON object overwrite, so the last pair wins. -/
def jsGetField (j : Json) (k : String) : Option Json :=
  match j with
  | .obj fields => fields.foldl (fun acc p => if p.1 = k then some p.2 else acc) none
  | _ => none

/-- Whether the raw text of a JSON number denotes zero (every mantissa
digit is `0`), mirroring JS numeric truthiness. -/
def jsNumIsZero (raw : String) : Bool :=
  (raw.toList.takeWhile (fun c => c ≠ 'e' && c ≠ 'E')).all (fun c => !isDigit c || c = '0')

/-- JS truthiness of a parsed JSON value. -/
def jsTruthy : Json → Bool
  | .null => false
  | .bool b => b
  | .num raw => !jsNumIsZero raw
  | .str s => s != ""
  | .arr _ => true
  | .obj _ => true

/-- View a JSON value as an array of strings, if it is one. -/
def asStrList (j : Json) : Option (List String) :=
  match j with
  | .arr es => es.mapM (fun e => match e with | .str s => some s | _ => none)
  | _ => none

/-- One `parsed.field || []` read used as a string list. -/
def fieldList (parsed : Json) (k : String) : Except Unit (List String) :=
  match jsGetField parsed k with
  | none => .ok []
  | some v =>
    if jsTruthy v then
      match asStrList v with
      | some l => .ok l
      | none => .error ()
    else .ok []

/-- The four list fields the orchestrator reads from a recovered
analysis value. -/
structure AnalysisFields where
  visibleItems : List String
  itemArrangements : List String
  trashToRemove : List String
  misplacedItems : List String

/-- Extract the four list fields from the recovered value (`.error`
models the TypeError of reading a property of `null`, or a truthy field
that is not an array of strings). -/
def fieldsOf (parsed : Json) : Except Unit AnalysisFields :=
  match parsed with
  | .null => .error ()
  | _ =>
    match fieldList parsed "visibleItems", fieldList parsed "itemArrangements",
        fieldList parsed "trashToRemove", fieldList parsed "misplacedItems" with
    | .ok a, .ok b, .ok c, .ok d => .ok ⟨a, b, c, d⟩
    | _, _, _, _ => .error ()

/-! ### Stage-4 edit-instruction synthesis -/

/-- Structural `startsWith` (kernel-reducible). -/
def startsWithStr (s p : String) : Bool := decide (List.take p.toList.length s.toList = p.toList)

/-- Structural single-character split, with JS `String.prototype.split`
semantics (`"".split(sep)` is `[""]`). -/
def splitOnChar (sep : Char) : List Char → List (List Char)
  | [] => [[]]
  | c :: rest =>
    let r := splitOnChar sep rest
    if c = sep then [] :: r
    else
      match r with
      | h :: t => (c :: h) :: t
      | [] => [[c]]

/-- `s.split(sep)` for a one-character separator. -/
def jsSplit (s : String) (sep : Char) : List String := (splitOnChar sep s.toList).map String.mk

/-- `s.toLowerCase()` (the embedded strings are ASCII, where JS and
ASCII lowercasing agree). -/
def toLowerStr (s : String) : String := String.mk (s.toList.map Char.toLower)

/-- `s.trim()`. -/
def trimStr (s : String) : String :=
  String.mk (((s.toList.dropWhile Char.isWhitespace).reverse.dropWhile Char.isWhitespace).reverse)

/-- `r.split(" ")[0]` — the text before the first space. -/
def jsFirstWord (r : String) : String := (jsSplit r ' ').headD ""

/-- Substring containment scan. -/
def containsSub : List Char → List Char → Bool
  | _, [] => true
  | [], _ => false
  | c :: rest, pat => decide (List.take pat.length (c :: rest) = pat) || containsSub rest pat

/-- `s.includes(sub)` — substring containment on strings. -/
def jsIncludesStr (s sub : String) : Bool := containsSub s.toList sub.toList

/-- The kept-items filter of stage 4: keep a visible item unless its
lowercased text contains the first word of some lowercased removable
(trash or misplaced) entry. -/
def keepListOf (items removable : List String) : List String :=
  let removableLower := removable.map toLowerStr
  items.filter (fun i => !removableLower.any (fun r => jsIncludesStr (toLowerStr i) (jsFirstWord r)))

/-- Render a list as the numbered `  1. item` lines of the edit prompt. -/
def numberedLines (l : List String) : List String :=
  l.enum.map (fun p => "  " ++ toString (p.1 + 1) ++ ". " ++ p.2)

/-- The array of lines of the built image-edit instruction, before the
`.filter(Boolean)` pass (the empty strings are the spacer entries of the
JS array literal, plus the removable line when there is nothing to
remove). -/
def editPromptLines (f : AnalysisFields) : List String :=
  let removable := f.trashToRemove ++ f.misplacedItems
  let keep := keepListOf f.visibleItems removable
  ["CRITICAL INSTRUCTION: This is a REARRANGING task, NOT a removing task.",
    "Show the SAME room with the SAME objects — just neatly repositioned and straightened.",
    "DO NOT erase, delete, or make any objects disappear EXCEPT the specific removable items listed below.",
    ""] ++
  ["ITEMS THAT MUST STAY (" ++ toString keep.length ++ " objects — all must be visible in result):"] ++
  numberedLines keep ++
  ["", "HOW TO REARRANGE THEM:"] ++
  numberedLines f.itemArrangements ++
  [""] ++
  [if removable.length > 0 then
      "THESE items may be removed (trash or misplaced): " ++ String.intercalate ", " removable
    else ""] ++
  [""] ++
  ["RULES:",
    "- Same room, same camera angle, same walls, same floor, same lighting, same colors.",
    "- The number of visible objects should be approximately the SAME as the original photo minus the removable items.",
    "- The room should look lived-in and realistic — like someone spent 1 hour straightening up.",
    "- DO NOT make surfaces empty. Items stay on surfaces but get aligned and grouped.",
    "- DO NOT make the room look like a magazine photo or a showroom.",
    "- Realistic photo style matching the original image."]

/-- The built image-edit instruction: when both `visibleItems` and
`itemArrangements` are nonempty, the joined non-empty prompt lines;
otherwise the truthy `parsed.imagePrompt` string if any. -/
def buildImageEditInstruction (parsed : Json) (f : AnalysisFields) : Option String :=
  if f.visibleItems.length > 0 && f.itemArrangements.length > 0 then
    some (String.intercalate "\n" ((editPromptLines f).filter (fun l => l != "")))
  else
    match jsGetField parsed "imagePrompt" with
    | some (.str s) => if s != "" then some s else none
    | _ => none

/-! ### Stage-1 media-type sniff -/

/-- Word character for the `\w` class of the data-URL regex. -/
def isWordChar (c : Char) : Bool :=
  isDigit c || ('a' ≤ c && c ≤ 'z') || ('A' ≤ c && c ≤ 'Z') || c = '_'

/-- Match of the anchored regex `data:(image\/\w+);base64,` against the
start of the string, returning its capture group. -/
def dataUrlMediaType (b : String) : Option String :=
  let cs := b.toList
  if List.take 5 cs = "data:".toList then
    let r1 := List.drop 5 cs
    if List.take 6 r1 = "image/".toList then
      let r2 := List.drop 6 r1
      let w := r2.takeWhile isWordChar
      let r3 := r2.dropWhile isWordChar
      if w ≠ [] ∧ List.take 8 r3 = ";base64,".toList then
        some ("image/" ++ String.mk w)
      else none
    else none
  else none

/-- Magic-byte sniff of the base64 payload, defaulting to JPEG. -/
def sniffMediaType (s : String) : String :=
  if startsWithStr s "/9j/" then "image/jpeg"
  else if startsWithStr s "iVBOR" then "image/png"
  else if startsWithStr s "R0lGOD" then "image/gif"
  else if startsWithStr s "UklGR" then "image/webp"
  else "image/jpeg"

/-- `getMediaType`: declared data-URL type first, then magic bytes.  A
`data:`-prefixed string that matches neither the regex nor contains a
comma makes the JS code call a method on `undefined` (`.error`). -/
def getMediaType (b : String) : Except Unit String :=
  if startsWithStr b "data:" then
    match dataUrlMediaType b with
    | some mt => .ok mt
    | none =>
      match (jsSplit b ',').get? 1 with
      | some rest => .ok (sniffMediaType rest)
      | none => .error ()
  else .ok (sniffMediaType b)

/-- `stripDataUrlPrefix`: the piece after the first comma, if any. -/
def stripDataUrl (b : String) : String :=
  if (jsSplit b ',').length ≥ 2 then ((jsSplit b ',').get? 1).getD "" else b

/-! ### The space-analysis orchestrator -/

/-- JS truthiness of an optional string input (absent and `""` falsy). -/
def truthyStr : Option String → Bool
  | none => false
  | some s => s != ""

/-- Request body of the `analyzeSpace` endpoint. -/
structure SpaceReq where
  methodPost : Bool
  imageBase64 : Option String
  userId : Option String
  userVision : Option String

/-- Environment of one `analyzeSpace` run: outcomes of the scene-analysis
call, the image-edit call and the store writes (the I/O boundary). -/
structure SpaceEnv where
  analysisOk : Bool
  analysisText : String
  oaiKeyPresent : Bool
  editOk : Bool
  stage4StoreOk : Bool
  stage5StoreOk : Bool
  bucketName : String
  editTimestamp : Nat
  beforeTimestamp : Nat

/-- A successfully performed store write. -/
inductive SpaceWrite where
  | blob (path : String)
  | session (userId : String) (beforeImageUrl : String) (afterImageUrl : Option String)
      (analysis : Json)

/-- Responses of the `analyzeSpace` endpoint. -/
inductive SpaceResp where
  | methodNotAllowed
  | missingFields
  | analysisFailed
  | malformedAnalysis
  | internalError
  | ok (analysis : Json) (afterImageUrl : Option String)

/-- The public URL the storage layer returns for a saved blob. -/
def publicUrl (bucket path : String) : String :=
  "https://storage.googleapis.com/" ++ bucket ++ "/" ++ path

/-- The `analyzeSpace` handler: validation, media sniff, scene analysis,
stage-3 recovery, field extraction, edit-instruction synthesis, the
non-fatal stage-4 image edit, and the non-fatal stage-5 persistence. -/
def analyzeSpace (req : SpaceReq) (env : SpaceEnv) : SpaceResp × List SpaceWrite :=
  if !req.methodPost then (.methodNotAllowed, [])
  else if !(truthyStr req.imageBase64 && truthyStr req.userId) then (.missingFields, [])
  else
    let img := req.imageBase64.getD ""
    let uid := req.userId.getD ""
    match getMediaType img with
    | .error _ => (.internalError, [])
    | .ok mediaType =>
      if !env.analysisOk then (.analysisFailed, [])
      else
        match stage3 env.analysisText with
        | .malformed => (.malformedAnalysis, [])
        | .exception => (.internalError, [])
        | .parsedOk parsed =>
          match fieldsOf parsed with
          | .error _ => (.internalError, [])
          | .ok f =>
            let _instruction := buildImageEditInstruction parsed f
            let afterPath := "coach/" ++ uid ++ "/" ++ toString env.editTimestamp ++ "_after.png"
            let stage4 : Option String × List SpaceWrite :=
              if env.oaiKeyPresent && env.editOk && env.stage4StoreOk then
                (some (publicUrl env.bucketName afterPath), [.blob afterPath])
              else (none, [])
            let ext := if mediaType = "image/png" then "png" else "jpg"
            let beforePath :=
              "coach/" ++ uid ++ "/" ++ toString env.beforeTimestamp ++ "_before." ++ ext
            let stage5 : List SpaceWrite :=
              if env.stage5StoreOk then
                [.blob beforePath,
                  .session uid (publicUrl env.bucketName beforePath) stage4.1 parsed]
              else []
            (.ok parsed stage4.1, stage4.2 ++ stage5)

/-! ### Timestamps and item records of the Tidy coach context -/

/-- The shapes a stored `createdAt` value can take: a Firestore
`Timestamp` wrapper (the only shape carrying a `toDate` method), a
native `Date`, a parseable ISO string, or something `new Date(...)`
turns into an Invalid Date (absent or malformed). -/
inductive CreatedAt where
  | wrapper (ms : Int)
  | nativeDate (ms : Int)
  | isoString (ms : Int)
  | invalid
deriving DecidableEq

/-- A stored item record, restricted to the fields the context assembly
reads. -/
structure StoredItem where
  name : String
  category : Option String
  space : Option String
  createdAt : CreatedAt
deriving DecidableEq

/-- The `createdAt?.toDate ? createdAt.toDate() : new Date(createdAt)`
normalization used by `getItemsThisWeek`: every valid shape yields its
instant in milliseconds, an Invalid Date yields NaN (`none`), and every
comparison against NaN is false. -/
def normCreatedMs : CreatedAt → Option Int
  | .wrapper ms => some ms
  | .nativeDate ms => some ms
  | .isoString ms => some ms
  | .invalid => none

/-- Milliseconds in `7 * 24 * 60 * 60 * 1000`. -/
def msPerWeek : Int := 7 * 24 * 60 * 60 * 1000

/-- `getItemsThisWeek`: count the items whose normalized creation time
satisfies `created >= now - 7d` (a NaN comparison is false). -/
def getItemsThisWeek (now : Int) (items : List StoredItem) : Nat :=
  let weekAgo := now - msPerWeek
  (items.filter (fun it =>
    match normCreatedMs it.createdAt with
    | some t => decide (weekAgo ≤ t)
    | none => false)).length

/-! ### `getMostFrequent`

The JS function tallies into a plain object (`counts[val]` insertion
keeps first-encounter order, repeats increment in place) and then scans
`Object.entries(counts)` keeping the first strictly-greater count.
`Object.entries` enumerates integer-like keys first in ascending numeric
order, then the remaining keys in insertion order. -/

/-- Increment the tally of `k`, appending it on first encounter. -/
def bump : List (String × Nat) → String → List (String × Nat)
  | [], k => [(k, 1)]
  | (k', c) :: rest, k => if k' = k then (k', c + 1) :: rest else (k', c) :: bump rest k

/-- Tally the truthy values of a field across the records (absent and
`""` are skipped), in first-encounter order. -/
def tallyField (vals : List (Option String)) : List (String × Nat) :=
  vals.foldl (fun acc v =>
    match v with
    | some s => if s = "" then acc else bump acc s
    | none => acc) []

/-- Numeric value of a digit string. -/
def digitsToNat (cs : List Char) : Nat := cs.foldl (fun a c => a * 10 + (c.toNat - 48)) 0

/-- Whether a string is a canonical array-index property key (the keys
`Object.entries` enumerates numerically first): a digit string without a
leading zero whose value is at most `2^32 - 2`. -/
def isArrayIndexKey (s : String) : Bool :=
  let cs := s.toList
  !cs.isEmpty && cs.all isDigit && (cs.length == 1 || cs.headD '0' != '0') &&
    decide (digitsToNat cs ≤ 4294967294)

/-- Ascending numeric order on array-index tally keys. -/
def entryNumLe (a b : String × Nat) : Prop := digitsToNat a.1.toList ≤ digitsToNat b.1.toList

instance : DecidableRel entryNumLe := fun _ _ => Nat.decLe _ _

/-- `Object.entries` enumeration order of a tally object: array-index
keys in ascending numeric order first, then the other keys in
first-encounter order. -/
def jsEntries (t : List (String × Nat)) : List (String × Nat) :=
  List.insertionSort entryNumLe (t.filter (fun p => isArrayIndexKey p.1)) ++
    t.filter (fun p => !isArrayIndexKey p.1)

/-- The `count > maxCount` scan of `getMostFrequent`, keeping the first
key whose count strictly exceeds the running maximum (initially 0). -/
def pickMaxAux : List (String × Nat) → Option String → Nat → Option String
  | [], best, _ => best
  | (k, c) :: rest, best, m =>
    if m < c then pickMaxAux rest (some k) c else pickMaxAux rest best m

/-- The maximal count appearing in a tally (0 for the empty tally). -/
def maxCountOf (l : List (String × Nat)) : Nat :=
  l.foldr (fun p acc => max p.2 acc) 0

/-- `getMostFrequent(items, field)`. -/
def getMostFrequent {α : Type} (items : List α) (field : α → Option String) : Option String :=
  pickMaxAux (jsEntries (tallyField (items.map field))) none 0

/-- Modelled from the spec: the claim's tie-break rule, "first-encountered
key wins, stably with respect to input order" — the same strict-maximum
scan but over the tally in first-encounter order, with no
`Object.entries` reordering.  Kept for comparison with the code's
`getMostFrequent`. -/
def specMostFrequentFirstEncounter (vals : List (Option String)) : Option String :=
  pickMaxAux (tallyField vals) none 0

/-! ### The recent-activity window -/

/-- The sort key of the client-side sort in `generateTidyComment`:
`a.createdAt?.toDate ? a.createdAt.toDate().getTime() : 0` — only the
Firestore wrapper shape carries its instant; every other shape
(native date, ISO string, absent, malformed) contributes epoch zero. -/
def sortKeyMs (it : StoredItem) : Int :=
  match it.createdAt with
  | .wrapper ms => ms
  | _ => 0

/-- Descending order by `sortKeyMs` (the comparator `bTime - aTime`). -/
def recentSortLe (a b : StoredItem) : Prop := sortKeyMs b ≤ sortKeyMs a

instance : DecidableRel recentSortLe := fun _ _ => Int.decLe _ _

instance : IsTotal StoredItem recentSortLe :=
  ⟨fun a b => Int.le_total (sortKeyMs b) (sortKeyMs a)⟩

instance : IsTrans StoredItem recentSortLe :=
  ⟨fun _ _ _ h1 h2 => le_trans h2 h1⟩

/-- The stable descending client-side sort of all the user's items
(JS `Array.prototype.sort` is stable, so it is realized by a stable
insertion sort with the comparator's order). -/
def sortItemsDesc (items : List StoredItem) : List StoredItem :=
  List.insertionSort recentSortLe items

/-- `allItems.slice(0, 7)` after the descending sort: the recent-items
window fed to the coaching prompt. -/
def recentWindow (items : List StoredItem) : List StoredItem :=
  (sortItemsDesc items).take 7

/-- Modelled from the spec: the claim's normalization for the ordering —
"a native date, an ISO string, or a store-specific timestamp wrapper"
all normalize to their instant, absent/malformed to epoch zero. -/
def specNormalizeTimestamp : CreatedAt → Int
  | .wrapper ms => ms
  | .nativeDate ms => ms
  | .isoString ms => ms
  | .invalid => 0

/-- Modelled from the spec: descending order by the claim's
normalization. -/
def specRecentLe (a b : StoredItem) : Prop :=
  specNormalizeTimestamp b.createdAt ≤ specNormalizeTimestamp a.createdAt

instance : DecidableRel specRecentLe := fun _ _ => Int.decLe _ _

/-- Modelled from the spec: the recent window the claim describes — the
7 most recent records under the claim's normalization. -/
def specRecentWindow (items : List StoredItem) : List StoredItem :=
  (List.insertionSort specRecentLe items).take 7

/-! ### The Tidy user profile and context assembly -/

/-- The user-profile fields read by the trigger. -/
structure TidyUserRec where
  dreamVision : Option String
  streak : Option Int
  score : Option Int

/-- The aggregated context handed to the prompt composer. -/
structure TidyContext where
  totalItems : Nat
  recentItems : List StoredItem
  topSpace : Option String
  topCategory : Option String
  itemsThisWeek : Nat
  userVision : String
  currentStreak : Int
  totalPoints : Int

/-- The context assembly of `generateTidyComment` (lines 406–455 of the
source): client-side descending sort, the 7-item recent window, pattern
detection over that window, the trailing-week count over all items, and
the profile reads with falsy defaults. -/
def tidyContextOf (now : Int) (allItems : List StoredItem) (user : Option TidyUserRec) :
    TidyContext :=
  let recent := recentWindow allItems
  { totalItems := allItems.length
    recentItems := recent
    topSpace := getMostFrequent recent (fun it => it.space)
    topCategory := getMostFrequent recent (fun it => it.category)
    itemsThisWeek := getItemsThisWeek now allItems
    userVision := (user.bind (fun u => u.dreamVision)).getD ""
    currentStreak := (user.bind (fun u => u.streak)).getD 0
    totalPoints := (user.bind (fun u => u.score)).getD 0 }

/-! ### The text-generation handlers and their effect traces -/

/-- A comment as stored on an item record. -/
structure TidyComment where
  userName : String
  isAI : Bool
  text : String

/-- The item-record fields the trigger reads. -/
structure TidyItemData where
  userId : Option String
  name : Option String
  category : Option String
  space : Option String
  note : Option String
  hasBeforeAfter : Bool
  comments : List TidyComment

/-- Environment of one trigger run. -/
structure TidyEnv where
  now : Int
  allItems : List StoredItem
  user : Option TidyUserRec
  shortMode : Bool
  responseOk : Bool
  responseText : String

/-- Observable effects of a text-generation handler run: provider calls
(with their client-side timeout and token budget) and store mutations. -/
inductive GenEffect where
  | providerCall (timeoutMs : Option Nat) (maxTokens : Int)
  | appendComment (c : TidyComment)

/-- Is this effect a generation-provider call? -/
def isProviderCall : GenEffect → Bool
  | .providerCall _ _ => true
  | _ => false

/-- Is this effect a store mutation? -/
def isMutation : GenEffect → Bool
  | .appendComment _ => true
  | _ => false

/-- The `generateTidyComment` Firestore trigger: guard clauses (missing
snapshot, missing required fields, an existing AI comment), then one
provider call under a 10 s abort timer, then — on success only — the
array-union append of the one AI comment.  The prompt text itself is
assembled from `tidyContextOf`; its content is not needed by any claim
and is not carried in the trace. -/
def generateTidyComment (snap : Option TidyItemData) (env : TidyEnv) : List GenEffect :=
  match snap with
  | none => []
  | some d =>
    if !(truthyStr d.userId && truthyStr d.name && truthyStr d.category) then []
    else if d.comments.any (fun c => c.isAI) then []
    else
      let _ctx := tidyContextOf env.now env.allItems env.user
      let call := GenEffect.providerCall (some 10000) (if env.shortMode then 60 else 200)
      if env.responseOk then
        [call, .appendComment { userName := "Tidy", isAI := true, text := trimStr env.responseText }]
      else [call]

/-- Request body of the `generateEncouragement` endpoint. -/
structure EncReq where
  methodPost : Bool
  itemName : Option String
  category : Option String

/-- Environment of one HTTP text-generation run. -/
structure CallEnv where
  shortMode : Bool
  responseOk : Bool
  responseText : String

/-- Responses of the `generateEncouragement` endpoint. -/
inductive EncResp where
  | methodNotAllowed
  | missingFields
  | providerUnavailable
  | ok (message : String)

/-- The `generateEncouragement` HTTP handler: note that its provider
`fetch` carries no `AbortController` signal, hence no client-side
timeout. -/
def generateEncouragement (req : EncReq) (env : CallEnv) : EncResp × List GenEffect :=
  if !req.methodPost then (.methodNotAllowed, [])
  else if !(truthyStr req.itemName && truthyStr req.category) then (.missingFields, [])
  else
    let call := GenEffect.providerCall none (if env.shortMode then 60 else 150)
    if env.responseOk then (.ok (trimStr env.responseText), [call])
    else (.providerUnavailable, [call])

/-- Request body of the `generateTidyCommentHTTP` endpoint. -/
structure TidyHttpReq where
  methodPost : Bool
  system : Option String
  prompt : Option String
  maxTokens : Option Int

/-- `Math.min(maxTokens || 200, 200)` (a falsy `maxTokens` — absent or
zero — defaults to 200). -/
def jsTokenLimit (mt : Option Int) : Int :=
  min (match mt with | some n => if n = 0 then 200 else n | none => 200) 200

/-- Responses of the `generateTidyCommentHTTP` endpoint. -/
inductive TidyHttpResp where
  | methodNotAllowed
  | missingPrompt
  | providerUnavailable
  | ok (text : String)

/-- The `generateTidyCommentHTTP` fallback endpoint: one provider call
under a 15 s abort timer with the capped token budget. -/
def generateTidyCommentHTTP (req : TidyHttpReq) (env : CallEnv) :
    TidyHttpResp × List GenEffect :=
  if !req.methodPost then (.methodNotAllowed, [])
  else if !truthyStr req.prompt then (.missingPrompt, [])
  else
    let call := GenEffect.providerCall (some 15000) (jsTokenLimit req.maxTokens)
    if env.responseOk then (.ok (trimStr env.responseText), [call])
    else (.providerUnavailable, [call])

/-! ### Helper lemmas about the greedy brace span -/

theorem dropUntilOpen_eq_nil_of_no_open {cs : List Char} (h : '{' ∉ cs) :
    dropUntilOpen cs = [] := by
  induction cs with
  | nil => rfl
  | cons c rest ih =>
    have hc : c ≠ '{' := by
      intro hc
      exact h (hc ▸ List.mem_cons_self c rest)
    have hr : '{' ∉ rest := fun hmem => h (List.mem_cons_of_mem c hmem)
    simp [dropUntilOpen, hc, ih hr]

theorem greedySpan_eq_none_of_no_open {cs : List Char} (h : '{' ∉ cs) :
    greedySpan cs = none := by
  simp [greedySpan, dropUntilOpen_eq_nil_of_no_open h]

theorem dropUntilOpen_append_of_no_open {p : List Char} (x : List Char) (h : '{' ∉ p) :
    dropUntilOpen (p ++ x) = dropUntilOpen x := by
  induction p with
  | nil => rfl
  | cons c rest ih =>
    have hc : c ≠ '{' := by
      intro hc
      exact h (hc ▸ List.mem_cons_self c rest)
    have hr : '{' ∉ rest := fun hmem => h (List.mem_cons_of_mem c hmem)
    simp [dropUntilOpen, hc, ih hr]

theorem takeToLastClose_eq_none_of_no_close {cs : List Char} (h : '}' ∉ cs) :
    takeToLastClose cs = none := by
  induction cs with
  | nil => rfl
  | cons c rest ih =>
    have hc : c ≠ '}' := by
      intro hc
      exact h (hc ▸ List.mem_cons_self c rest)
    have hr : '}' ∉ rest := fun hmem => h (List.mem_cons_of_mem c hmem)
    simp [takeToLastClose, ih hr, hc]

theorem takeToLastClose_concat_append {q : List Char} (mid : List Char) (hq : '}' ∉ q) :
    takeToLastClose ((mid ++ ['}']) ++ q) = some (mid ++ ['}']) := by
  induction mid with
  | nil => simp [takeToLastClose, takeToLastClose_eq_none_of_no_close hq]
  | cons c rest ih =>
    have ih' : takeToLastClose (rest ++ '}' :: q) = some (rest ++ ['}']) := by
      simpa [List.append_assoc] using ih
    simp [takeToLastClose, ih']

theorem greedySpan_wrap {p q : List Char} (mid : List Char) (hp : '{' ∉ p) (hq : '}' ∉ q) :
    greedySpan (p ++ ('{' :: (mid ++ ['}'])) ++ q) = some ('{' :: (mid ++ ['}'])) := by
  have h1 : dropUntilOpen ((p ++ ('{' :: (mid ++ ['}']))) ++ q) =
      '{' :: ((mid ++ ['}']) ++ q) := by
    rw [List.append_assoc]
    rw [dropUntilOpen_append_of_no_open _ hp]
    simp [dropUntilOpen]
  have h2 := takeToLastClose_concat_append (q := q) mid hq
  simp only [greedySpan, h1, h2]

/-! ### Claim C1 -/

/-- Claim C1, corrected.  Stage-3 recovery: (1) a direct `JSON.parse`
success of any JSON value is accepted as-is; (2) when direct parse fails
and the text has no `'{'` at all, the request fails with the
`MalformedAnalysis` 502 response; (3) when direct parse fails and the
greedy first-`'{'`-to-last-`'}'` span also fails to parse, the request
fails with the generic 500 instead; (4) brace-free prose wrapping a
single well-formed JSON object (on which direct parse fails) is
recovered and parsed successfully; (5) at the endpoint, a `malformed`
recovery outcome yields the `MalformedAnalysis` response and no store
writes. -/
theorem c1_stage3_recovery :
    (∀ (t : String) (j : Json), jsonParse t = some j → stage3 t = .parsedOk j) ∧
    (∀ t : String, jsonParse t = none → '{' ∉ t.toList → stage3 t = .malformed) ∧
    (∀ (t : String) (span : List Char), jsonParse t = none → greedySpan t.toList = some span →
      jsonParse (String.mk span) = none → stage3 t = .exception) ∧
    (∀ (pre post : String) (mid : List Char) (j : Json),
      jsonParse (pre ++ String.mk ('{' :: (mid ++ ['}'])) ++ post) = none →
      '{' ∉ pre.toList → '}' ∉ post.toList →
      jsonParse (String.mk ('{' :: (mid ++ ['}']))) = some j →
      stage3 (pre ++ String.mk ('{' :: (mid ++ ['}'])) ++ post) = .parsedOk j) ∧
    (∀ (req : SpaceReq) (env : SpaceEnv) (mt : String),
      req.methodPost = true → truthyStr req.imageBase64 = true → truthyStr req.userId = true →
      getMediaType (req.imageBase64.getD "") = .ok mt → env.analysisOk = true →
      stage3 env.analysisText = .malformed →
      analyzeSpace req env = (.malformedAnalysis, [])) := by
  refine ⟨?_, ?_, ?_, ?_, ?_⟩
  · intro t j h
    simp [stage3, h]
  · intro t h hno
    have hno' : '{' ∉ t.data := hno
    simp [stage3, h, greedySpan_eq_none_of_no_open hno']
  · intro t span h hspan hnone
    have hspan' : greedySpan t.data = some span := hspan
    simp [stage3, h, hspan', hnone]
  · intro pre post mid j hfail hpre hpost hobj
    have hpre' : '{' ∉ pre.data := hpre
    have hpost' : '}' ∉ post.data := hpost
    have hg := greedySpan_wrap (p := pre.data) (q := post.data) mid hpre' hpost'
    simp only [List.append_assoc, List.cons_append, List.singleton_append, List.nil_append] at hg
    simp [stage3, hfail, hg, hobj]
  · intro req env mt hm hi hu hmt hana hst
    simp [analyzeSpace, hm, hi, hu, hmt, hana, hst]

/-- Claim C1, counterexample to the claim as stated: the text `"3"`
contains no `'{'` or `'}'` at all, yet the request does not fail with
`MalformedAnalysis` — direct `JSON.parse` accepts it; and for a text
consisting of two concatenated well-formed objects, the first
balanced-brace span would parse, but the code's greedy span (first `'{'`
to last `'}'`) fails to re-parse and escapes as the generic 500
exception rather than being recovered. -/
theorem c1_counterexample :
    stage3 "3" = .parsedOk (.num "3") ∧
    ('{' ∉ "3".toList ∧ '}' ∉ "3".toList) ∧
    stage3 "\x7b\"a\":1\x7d\x7b\"b\":2\x7d" = .exception := by
  exact ⟨rfl, by decide, rfl⟩

/-- Claim C1, witness: the prose-wrap recovery branch of
`c1_stage3_recovery` at a concrete wrapped response. -/
theorem c1_witness :
    stage3 ("Sure: " ++ String.mk ('{' :: ("\"a\":1".toList ++ ['}'])) ++ " ok") =
      .parsedOk (.obj [("a", .num "1")]) :=
  c1_stage3_recovery.2.2.2.1 "Sure: " " ok" "\"a\":1".toList (.obj [("a", .num "1")])
    (by rfl) (by decide) (by decide) (by rfl)

/-! ### Claim C3 -/

/-- Claim C3, confirmed.  Stage-4 failure is non-fatal: when the scene
analysis succeeded and its result was recovered and extracted, but the
image-edit provider call returns a non-success status or no image key is
configured, the request still completes successfully — the session
record is still created (when the stage-5 store write succeeds), its
`afterImageUrl` field is null, and the parsed analysis result is
returned to the caller unchanged. -/
theorem c3_stage4_nonfatal :
    ∀ (req : SpaceReq) (env : SpaceEnv) (mt : String) (parsed : Json) (f : AnalysisFields),
    req.methodPost = true →
    truthyStr req.imageBase64 = true →
    truthyStr req.userId = true →
    getMediaType (req.imageBase64.getD "") = .ok mt →
    env.analysisOk = true →
    stage3 env.analysisText = .parsedOk parsed →
    fieldsOf parsed = .ok f →
    env.stage5StoreOk = true →
    (env.oaiKeyPresent = false ∨ env.editOk = false) →
    ∃ bp, analyzeSpace req env =
      (.ok parsed none,
        [.blob bp, .session (req.userId.getD "") (publicUrl env.bucketName bp) none parsed]) := by
  intro req env mt parsed f hm hi hu hmt hana hst hf hs5 h4
  have h4' : (env.oaiKeyPresent && env.editOk && env.stage4StoreOk) = false := by
    rcases h4 with h | h <;> simp [h]
  refine ⟨"coach/" ++ req.userId.getD "" ++ "/" ++ toString env.beforeTimestamp ++
    "_before." ++ (if mt = "image/png" then "png" else "jpg"), ?_⟩
  simp [analyzeSpace, hm, hi, hu, hmt, hana, hst, hf, hs5, h4']

/-- Claim C3, witness: a concrete run with a configured image key whose
edit call fails (`editOk = false`). -/
theorem c3_witness :
    ∃ bp,
      analyzeSpace ⟨true, some "iVBORtest", some "u1", none⟩
          ⟨true, "\x7b\"spaceName\":\"Bedroom\"\x7d", true, false, true, true, "bkt", 11, 22⟩ =
        (.ok (.obj [("spaceName", .str "Bedroom")]) none,
          [.blob bp, .session "u1" (publicUrl "bkt" bp) none
            (.obj [("spaceName", .str "Bedroom")])]) :=
  c3_stage4_nonfatal ⟨true, some "iVBORtest", some "u1", none⟩
    ⟨true, "\x7b\"spaceName\":\"Bedroom\"\x7d", true, false, true, true, "bkt", 11, 22⟩
    "image/png" (.obj [("spaceName", .str "Bedroom")]) ⟨[], [], [], []⟩
    rfl rfl rfl rfl rfl rfl rfl rfl (Or.inr rfl)

/-! ### Claim C10 -/

/-- Claim C10, confirmed.  Failure atomicity of the space-analysis
endpoint: if the request is rejected for missing required fields, or the
scene-analysis call returns a non-success status, or the returned text
yields no parseable JSON even after brace extraction, then the handler
persists nothing — the write list is empty and the response is not a
success. -/
theorem c10_failure_atomicity :
    ∀ (req : SpaceReq) (env : SpaceEnv),
    req.methodPost = true →
    ((truthyStr req.imageBase64 = false ∨ truthyStr req.userId = false) ∨
      env.analysisOk = false ∨
      (∀ j, stage3 env.analysisText ≠ .parsedOk j)) →
    (analyzeSpace req env).2 = [] ∧ ∀ j u, (analyzeSpace req env).1 ≠ .ok j u := by
  intro req env hm h
  by_cases hv : (truthyStr req.imageBase64 && truthyStr req.userId) = true
  · rcases hmt : getMediaType (req.imageBase64.getD "") with u | mt
    · constructor
      · simp [analyzeSpace, hm, hv, hmt]
      · intro j u'
        simp [analyzeSpace, hm, hv, hmt]
    · by_cases hana : env.analysisOk = true
      · have h3 : ∀ j, stage3 env.analysisText ≠ .parsedOk j := by
          rcases h with (h | h) | h | h
          · rw [Bool.and_eq_true] at hv
            rw [hv.1] at h
            exact absurd h (by simp)
          · rw [Bool.and_eq_true] at hv
            rw [hv.2] at h
            exact absurd h (by simp)
          · rw [hana] at h
            exact absurd h (by simp)
          · exact h
        rcases hst : stage3 env.analysisText with j | _ | _
        · exact absurd hst (h3 j)
        · constructor
          · simp [analyzeSpace, hm, hv, hmt, hana, hst]
          · intro j u'
            simp [analyzeSpace, hm, hv, hmt, hana, hst]
        · constructor
          · simp [analyzeSpace, hm, hv, hmt, hana, hst]
          · intro j u'
            simp [analyzeSpace, hm, hv, hmt, hana, hst]
      · rw [Bool.not_eq_true] at hana
        constructor
        · simp [analyzeSpace, hm, hv, hmt, hana]
        · intro j u'
          simp [analyzeSpace, hm, hv, hmt, hana]
  · rw [Bool.not_eq_true] at hv
    constructor
    · simp [analyzeSpace, hm, hv]
    · intro j u'
      simp [analyzeSpace, hm, hv]

/-- Claim C10, witness: a concrete run whose analysis text yields no
parseable JSON (no brace span), persisting nothing. -/
theorem c10_witness :
    (analyzeSpace ⟨true, some "iVBORtest", some "u1", none⟩
        ⟨true, "no json at all", true, true, true, true, "bkt", 11, 22⟩).2 = [] ∧
    ∀ j u, (analyzeSpace ⟨true, some "iVBORtest", some "u1", none⟩
        ⟨true, "no json at all", true, true, true, true, "bkt", 11, 22⟩).1 ≠ .ok j u :=
  c10_failure_atomicity ⟨true, some "iVBORtest", some "u1", none⟩
    ⟨true, "no json at all", true, true, true, true, "bkt", 11, 22⟩
    rfl (Or.inr (Or.inr (fun j h => by simp [show stage3 "no json at all" = .malformed from rfl] at h)))

/-! ### Claim C4 -/

/-- Claim C4, confirmed.  The record-creation trigger is a no-op — zero
generation-provider calls and zero store mutations — whenever the
snapshot is missing, a required field (owning user, name, category) is
missing or empty, or the record already contains a comment with the
automated flag set.  In particular a second automated comment is never
appended to a record that already has one. -/
theorem c4_trigger_noop :
    ∀ (snap : Option TidyItemData) (env : TidyEnv),
    (snap = none ∨
      ∃ d, snap = some d ∧
        (truthyStr d.userId = false ∨ truthyStr d.name = false ∨
          truthyStr d.category = false ∨ d.comments.any (fun c => c.isAI) = true)) →
    generateTidyComment snap env = [] ∧
    (generateTidyComment snap env).filter isProviderCall = [] ∧
    (generateTidyComment snap env).filter isMutation = [] := by
  intro snap env h
  have hnil : generateTidyComment snap env = [] := by
    rcases h with h | ⟨d, hd, hcase⟩
    · simp [generateTidyComment, h]
    · subst hd
      rcases hcase with h | h | h | h
      · simp [generateTidyComment, h]
      · simp [generateTidyComment, h]
      · simp [generateTidyComment, h]
      · by_cases hg : (truthyStr d.userId && truthyStr d.name && truthyStr d.category) = true
        · simp [generateTidyComment, hg, h]
        · rw [Bool.not_eq_true] at hg
          simp [generateTidyComment, hg]
  exact ⟨hnil, by simp [hnil], by simp [hnil]⟩

/-- Claim C4, witness: a record that already carries one automated
comment produces an empty effect trace. -/
theorem c4_witness :
    generateTidyComment
        (some ⟨some "u1", some "old coat", some "clothing", some "closet", none, false,
          [⟨"Tidy", true, "nice work"⟩]⟩)
        ⟨0, [], none, true, true, "text"⟩ = [] ∧
    (generateTidyComment
        (some ⟨some "u1", some "old coat", some "clothing", some "closet", none, false,
          [⟨"Tidy", true, "nice work"⟩]⟩)
        ⟨0, [], none, true, true, "text"⟩).filter isProviderCall = [] ∧
    (generateTidyComment
        (some ⟨some "u1", some "old coat", some "clothing", some "closet", none, false,
          [⟨"Tidy", true, "nice work"⟩]⟩)
        ⟨0, [], none, true, true, "text"⟩).filter isMutation = [] :=
  c4_trigger_noop
    (some ⟨some "u1", some "old coat", some "clothing", some "closet", none, false,
      [⟨"Tidy", true, "nice work"⟩]⟩)
    ⟨0, [], none, true, true, "text"⟩
    (Or.inr ⟨_, rfl, Or.inr (Or.inr (Or.inr (by decide)))⟩)

/-! ### Claim C9 -/

/-- Claim C9, corrected (amended form).  Each of the three
text-generation handlers makes exactly one provider call per accepted
request, with no internal retry (the trace is the same single call
whether the provider responds successfully or not): the record-creation
trigger under a 10 s client-side timeout, the HTTP fallback endpoint
under a 15 s client-side timeout, and the encouragement endpoint with
no client-side timeout at all. -/
theorem c9_timeouts :
    (∀ (snap : Option TidyItemData) (env : TidyEnv) (d : TidyItemData),
      snap = some d →
      truthyStr d.userId = true → truthyStr d.name = true → truthyStr d.category = true →
      d.comments.any (fun c => c.isAI) = false →
      (generateTidyComment snap env).filter isProviderCall =
        [.providerCall (some 10000) (if env.shortMode then 60 else 200)]) ∧
    (∀ (req : TidyHttpReq) (env : CallEnv),
      req.methodPost = true → truthyStr req.prompt = true →
      ((generateTidyCommentHTTP req env).2).filter isProviderCall =
        [.providerCall (some 15000) (jsTokenLimit req.maxTokens)]) ∧
    (∀ (req : EncReq) (env : CallEnv),
      req.methodPost = true → truthyStr req.itemName = true → truthyStr req.category = true →
      ((generateEncouragement req env).2).filter isProviderCall =
        [.providerCall none (if env.shortMode then 60 else 150)]) := by
  refine ⟨?_, ?_, ?_⟩
  · intro snap env d hd hu hn hc hai
    subst hd
    by_cases hok : env.responseOk = true
    · simp [generateTidyComment, hu, hn, hc, hai, hok, isProviderCall, isMutation]
    · rw [Bool.not_eq_true] at hok
      simp [generateTidyComment, hu, hn, hc, hai, hok, isProviderCall]
  · intro req env hm hp
    by_cases hok : env.responseOk = true
    · simp [generateTidyCommentHTTP, hm, hp, hok, isProviderCall]
    · rw [Bool.not_eq_true] at hok
      simp [generateTidyCommentHTTP, hm, hp, hok, isProviderCall]
  · intro req env hm hi hc
    by_cases hok : env.responseOk = true
    · simp [generateEncouragement, hm, hi, hc, hok, isProviderCall]
    · rw [Bool.not_eq_true] at hok
      simp [generateEncouragement, hm, hi, hc, hok, isProviderCall]

/-- Claim C9, counterexample to the claim as stated: the encouragement
endpoint's provider call is issued with no client-side timeout, so not
every text-generation call is bounded by a 10–15 s abort deadline. -/
theorem c9_counterexample :
    (generateEncouragement ⟨true, some "old jacket", some "clothing"⟩ ⟨true, true, "msg"⟩).2 =
      [.providerCall none 60] ∧
    ¬ ∀ e ∈ (generateEncouragement ⟨true, some "old jacket", some "clothing"⟩
        ⟨true, true, "msg"⟩).2,
      ∀ tmo mtk, e = GenEffect.providerCall tmo mtk →
        ∃ t, tmo = some t ∧ 10000 ≤ t ∧ t ≤ 15000 := by
  refine ⟨rfl, ?_⟩
  intro h
  have hmem : GenEffect.providerCall none 60 ∈
      (generateEncouragement ⟨true, some "old jacket", some "clothing"⟩ ⟨true, true, "msg"⟩).2 := by
    rw [show (generateEncouragement ⟨true, some "old jacket", some "clothing"⟩
        ⟨true, true, "msg"⟩).2 = [GenEffect.providerCall none 60] from rfl]
    exact List.mem_singleton.mpr rfl
  rcases h _ hmem none 60 rfl with ⟨t, ht, _⟩
  exact Option.noConfusion ht

/-- Claim C9, witness: the amended theorem at concrete runs of the three
handlers. -/
theorem c9_witness :
    (generateTidyComment (some ⟨some "u1", some "coat", some "clothing", none, none, false, []⟩)
        ⟨0, [], none, true, false, "t"⟩).filter isProviderCall =
      [.providerCall (some 10000) 60] ∧
    ((generateTidyCommentHTTP ⟨true, none, some "write a comment", some 120⟩
        ⟨true, true, "t"⟩).2).filter isProviderCall =
      [.providerCall (some 15000) (jsTokenLimit (some 120))] ∧
    ((generateEncouragement ⟨true, some "coat", some "clothing"⟩
        ⟨false, true, "t"⟩).2).filter isProviderCall =
      [.providerCall none 150] :=
  ⟨c9_timeouts.1 _ ⟨0, [], none, true, false, "t"⟩ _ rfl rfl rfl rfl rfl,
    c9_timeouts.2.1 ⟨true, none, some "write a comment", some 120⟩ ⟨true, true, "t"⟩ rfl rfl,
    c9_timeouts.2.2 ⟨true, some "coat", some "clothing"⟩ ⟨false, true, "t"⟩ rfl rfl rfl⟩

/-! ### Claim C2 -/

/-- Claim C2, corrected (amended form).  No cardinality parity between
`visibleItems` and `itemArrangements` is checked anywhere after stage-3
recovery: whenever both lists are nonempty the edit instruction is
built, and an accepted result whose two lists have different lengths
still proceeds through stage 4 and is returned to the caller as a
success. -/
theorem c2_no_parity_check :
    (∀ (parsed : Json) (f : AnalysisFields),
      f.visibleItems ≠ [] → f.itemArrangements ≠ [] →
      ∃ s, buildImageEditInstruction parsed f = some s) ∧
    (∀ (req : SpaceReq) (env : SpaceEnv) (mt : String) (parsed : Json) (f : AnalysisFields),
      req.methodPost = true →
      truthyStr req.imageBase64 = true →
      truthyStr req.userId = true →
      getMediaType (req.imageBase64.getD "") = .ok mt →
      env.analysisOk = true →
      stage3 env.analysisText = .parsedOk parsed →
      fieldsOf parsed = .ok f →
      f.visibleItems.length ≠ f.itemArrangements.length →
      ∃ u, (analyzeSpace req env).1 = .ok parsed u) := by
  constructor
  · intro parsed f h1 h2
    refine ⟨String.intercalate "\n" ((editPromptLines f).filter (fun l => l != "")), ?_⟩
    simp [buildImageEditInstruction, List.length_pos.mpr h1, List.length_pos.mpr h2]
  · intro req env mt parsed f hm hi hu hmt hana hst hf _
    refine ⟨if env.oaiKeyPresent && env.editOk && env.stage4StoreOk then
      some (publicUrl env.bucketName
        ("coach/" ++ req.userId.getD "" ++ "/" ++ toString env.editTimestamp ++ "_after.png"))
      else none, ?_⟩
    simp [analyzeSpace, hm, hi, hu, hmt, hana, hst, hf]
    split <;> rfl

/-- Claim C2, counterexample to the claim as stated: a response whose
`visibleItems` has 2 entries but whose `itemArrangements` has 1 is
accepted by stage-3 recovery, passes field extraction unrebuked, and the
whole request completes successfully — so the parity is not enforced or
checked post-parse. -/
theorem c2_counterexample :
    stage3 "\x7b\"visibleItems\":[\"bed\",\"desk\"],\"itemArrangements\":[\"bed made\"]\x7d" =
      .parsedOk (.obj [("visibleItems", .arr [.str "bed", .str "desk"]),
        ("itemArrangements", .arr [.str "bed made"])]) ∧
    fieldsOf (.obj [("visibleItems", .arr [.str "bed", .str "desk"]),
        ("itemArrangements", .arr [.str "bed made"])]) =
      .ok ⟨["bed", "desk"], ["bed made"], [], []⟩ ∧
    (2 : Nat) ≠ 1 ∧
    (analyzeSpace ⟨true, some "iVBORtest", some "u1", none⟩
        ⟨true, "\x7b\"visibleItems\":[\"bed\",\"desk\"],\"itemArrangements\":[\"bed made\"]\x7d",
          false, false, false, true, "bkt", 11, 22⟩).1 =
      .ok (.obj [("visibleItems", .arr [.str "bed", .str "desk"]),
        ("itemArrangements", .arr [.str "bed made"])]) none := by
  exact ⟨rfl, rfl, by decide, rfl⟩

/-- Claim C2, witness: the amended theorem's endpoint branch at the
concrete mismatched response. -/
theorem c2_witness :
    ∃ u, (analyzeSpace ⟨true, some "iVBORtest", some "u1", none⟩
        ⟨true, "\x7b\"visibleItems\":[\"bed\",\"desk\"],\"itemArrangements\":[\"bed made\"]\x7d",
          false, false, false, true, "bkt", 11, 22⟩).1 =
      .ok (.obj [("visibleItems", .arr [.str "bed", .str "desk"]),
        ("itemArrangements", .arr [.str "bed made"])]) u :=
  c2_no_parity_check.2 ⟨true, some "iVBORtest", some "u1", none⟩
    ⟨true, "\x7b\"visibleItems\":[\"bed\",\"desk\"],\"itemArrangements\":[\"bed made\"]\x7d",
      false, false, false, true, "bkt", 11, 22⟩
    "image/png"
    (.obj [("visibleItems", .arr [.str "bed", .str "desk"]),
      ("itemArrangements", .arr [.str "bed made"])])
    ⟨["bed", "desk"], ["bed made"], [], []⟩
    rfl rfl rfl rfl rfl rfl rfl (by decide)

/-! ### Helper lemmas for the edit-instruction synthesis -/

theorem mem_keepListOf {items removable : List String} {i : String} :
    i ∈ keepListOf items removable ↔
      i ∈ items ∧ ∀ r ∈ removable,
        jsIncludesStr (toLowerStr i) (jsFirstWord (toLowerStr r)) = false := by
  simp [keepListOf, List.mem_filter, List.any_map, Function.comp]

theorem numberedLines_ne_empty {l : List String} {x : String} (h : x ∈ numberedLines l) :
    (x != "") = true := by
  rcases List.mem_map.mp h with ⟨p, _, rfl⟩
  refine bne_iff_ne.mpr ?_
  intro hx
  have hzero : ("  " ++ toString (p.1 + 1) ++ ". " ++ p.2).length = 0 := by
    rw [hx]
    rfl
  rw [String.length_append, String.length_append, String.length_append] at hzero
  have h2 : ("  ").length = 2 := rfl
  omega

theorem sublist_of_append_right {α : Type} {x l : List α} (a : List α) (h : x.Sublist l) :
    x.Sublist (a ++ l) :=
  h.trans (List.sublist_append_right a l)

/-! ### Claim C5 -/

/-- Claim C5, corrected (amended form).  For every analysis with
nonempty `visibleItems` and `itemArrangements`, the synthesized
image-edit instruction (i) lists as "items that must stay" exactly the
visible objects whose lowercased text does not contain the first word of
any lowercased removable (trash or misplaced) entry — a first-word
substring heuristic, not the trash/misplaced flag itself; (ii) lists all
the item arrangements in a separate numbered section (in order); and
(iii) appends one line listing the removable objects when there is at
least one. -/
theorem c5_edit_instruction :
    (∀ (items removable : List String) (i : String),
      i ∈ keepListOf items removable ↔
        i ∈ items ∧ ∀ r ∈ removable,
          jsIncludesStr (toLowerStr i) (jsFirstWord (toLowerStr r)) = false) ∧
    (∀ f : AnalysisFields, f.visibleItems ≠ [] → f.itemArrangements ≠ [] →
      (numberedLines (keepListOf f.visibleItems (f.trashToRemove ++ f.misplacedItems))).Sublist
          ((editPromptLines f).filter (fun l => l != "")) ∧
      (numberedLines f.itemArrangements).Sublist
          ((editPromptLines f).filter (fun l => l != "")) ∧
      (f.trashToRemove ++ f.misplacedItems ≠ [] →
        ("THESE items may be removed (trash or misplaced): " ++
            String.intercalate ", " (f.trashToRemove ++ f.misplacedItems)) ∈
          (editPromptLines f).filter (fun l => l != ""))) := by
  constructor
  · intro items removable i
    exact mem_keepListOf
  · intro f _ _
    refine ⟨?_, ?_, ?_⟩
    · have hsub : (numberedLines (keepListOf f.visibleItems
          (f.trashToRemove ++ f.misplacedItems))).Sublist (editPromptLines f) := by
        simp only [editPromptLines, List.append_assoc]
        exact sublist_of_append_right _ (sublist_of_append_right _
          (List.sublist_append_left _ _))
      have hfil := hsub.filter (fun l => l != "")
      rwa [List.filter_eq_self.mpr (fun a ha => numberedLines_ne_empty ha)] at hfil
    · have hsub : (numberedLines f.itemArrangements).Sublist (editPromptLines f) := by
        simp only [editPromptLines, List.append_assoc]
        exact sublist_of_append_right _ (sublist_of_append_right _
          (sublist_of_append_right _ (sublist_of_append_right _
            (List.sublist_append_left _ _))))
      have hfil := hsub.filter (fun l => l != "")
      rwa [List.filter_eq_self.mpr (fun a ha => numberedLines_ne_empty ha)] at hfil
    · intro hne
      have hpos : (f.trashToRemove ++ f.misplacedItems).length > 0 := List.length_pos.mpr hne
      refine List.mem_filter.mpr ⟨?_, ?_⟩
      · show ("THESE items may be removed (trash or misplaced): " ++
            String.intercalate ", " (f.trashToRemove ++ f.misplacedItems)) ∈ editPromptLines f
        simp only [editPromptLines, List.append_assoc]
        refine List.mem_append_right _ (List.mem_append_right _ (List.mem_append_right _
          (List.mem_append_right _ (List.mem_append_right _ (List.mem_append_right _
            (List.mem_append_left _ ?_))))))
        rw [if_pos hpos]
        exact List.mem_singleton.mpr rfl
      · refine bne_iff_ne.mpr ?_
        intro hx
        have hzero : ("THESE items may be removed (trash or misplaced): " ++
            String.intercalate ", " (f.trashToRemove ++ f.misplacedItems)).length = 0 := by
          rw [hx]
          rfl
        rw [String.length_append] at hzero
        have h49 : ("THESE items may be removed (trash or misplaced): ").length = 49 := rfl
        omega

/-- Claim C5, counterexample to the claim as stated: the visible object
`"trash can"` is not flagged as trash or misplaced (the only removable
entry is `"trash wrapper"`), yet it is omitted from the must-stay list
because its text contains the removable entry's first word — so the
instruction does not list as must-stay every visible object not flagged
trash/misplaced.  (Conversely, `keepListOf ["wrapper on desk"] ["trash
wrapper"] = ["wrapper on desk"]`: a flagged object phrased without its
entry's first word stays.) -/
theorem c5_counterexample :
    keepListOf ["trash can", "bed"] ["trash wrapper"] = ["bed"] ∧
    "trash can" ∈ (["trash can", "bed"] : List String) ∧
    "trash can" ∉ (["trash wrapper"] : List String) ∧
    keepListOf ["wrapper on desk"] ["trash wrapper"] = ["wrapper on desk"] := by
  exact ⟨rfl, by decide, by decide, rfl⟩

/-- Claim C5, witness: the amended theorem at the concrete heuristic
example, plus its synthesis clauses at a small concrete analysis. -/
theorem c5_witness :
    ("trash can" ∈ keepListOf ["trash can", "bed"] ["trash wrapper"] ↔
      "trash can" ∈ ["trash can", "bed"] ∧ ∀ r ∈ ["trash wrapper"],
        jsIncludesStr (toLowerStr "trash can") (jsFirstWord (toLowerStr r)) = false) ∧
    (numberedLines ["bed made"]).Sublist
      ((editPromptLines ⟨["bed"], ["bed made"], ["trash wrapper"], []⟩).filter
        (fun l => l != "")) :=
  ⟨c5_edit_instruction.1 ["trash can", "bed"] ["trash wrapper"] "trash can",
    (c5_edit_instruction.2 ⟨["bed"], ["bed made"], ["trash wrapper"], []⟩
      (by decide) (by decide)).2.1⟩

/-! ### Claim C6 -/

/-- Claim C6, corrected (amended form).  `getItemsThisWeek` counts
exactly the records whose normalized creation time is at least
`now - 7d`, with no upper bound: a record at exactly `now - 7d` is
counted, a record at `now - 7d - 1ms` is not, a record with an
absent/malformed date (NaN) is never counted, and a future-dated record
(normalized time past `now`) is also counted. -/
theorem c6_trailing_window :
    (∀ (now : Int) (items : List StoredItem) (it : StoredItem) (t : Int),
      normCreatedMs it.createdAt = some t →
      getItemsThisWeek now (it :: items) =
        (if now - msPerWeek ≤ t then 1 else 0) + getItemsThisWeek now items) ∧
    (∀ (now : Int) (items : List StoredItem) (it : StoredItem),
      normCreatedMs it.createdAt = none →
      getItemsThisWeek now (it :: items) = getItemsThisWeek now items) ∧
    (∀ (now : Int) (it : StoredItem),
      normCreatedMs it.createdAt = some (now - msPerWeek) →
      getItemsThisWeek now [it] = 1) ∧
    (∀ (now : Int) (it : StoredItem),
      normCreatedMs it.createdAt = some (now - msPerWeek - 1) →
      getItemsThisWeek now [it] = 0) ∧
    (∀ (now : Int) (it : StoredItem) (k : Int), 0 ≤ k →
      normCreatedMs it.createdAt = some (now + k) →
      getItemsThisWeek now [it] = 1) := by
  have hstep : ∀ (now : Int) (items : List StoredItem) (it : StoredItem) (t : Int),
      normCreatedMs it.createdAt = some t →
      getItemsThisWeek now (it :: items) =
        (if now - msPerWeek ≤ t then 1 else 0) + getItemsThisWeek now items := by
    intro now items it t ht
    simp only [getItemsThisWeek, List.filter_cons, ht]
    by_cases hle : now - msPerWeek ≤ t
    · simp only [hle, decide_True, if_true, List.length_cons]
      omega
    · simp [hle]
  refine ⟨hstep, ?_, ?_, ?_, ?_⟩
  · intro now items it ht
    simp [getItemsThisWeek, ht]
  · intro now it ht
    rw [hstep now [] it _ ht]
    simp [getItemsThisWeek]
  · intro now it ht
    rw [hstep now [] it _ ht]
    have : ¬ (now - msPerWeek ≤ now - msPerWeek - 1) := by omega
    simp [getItemsThisWeek, this]
  · intro now it k hk ht
    rw [hstep now [] it _ ht]
    have : now - msPerWeek ≤ now + k := by
      have : (0 : Int) < msPerWeek := by decide
      omega
    simp [getItemsThisWeek, this]

/-- Claim C6, counterexample to the claim as stated: with `now = 0`, a
record whose normalized creation time is one day in the future
(`86400000 ms > now`) lies outside the interval `[now - 7d, now]`, yet
it is counted — the filter has no upper bound. -/
theorem c6_counterexample :
    getItemsThisWeek 0 [⟨"x", none, none, .wrapper 86400000⟩] = 1 ∧
    ¬ ((86400000 : Int) ≤ 0) := by
  exact ⟨rfl, by decide⟩

/-- Claim C6, witness: the boundary branches of `c6_trailing_window` at
`now = 0` — a record at exactly `-7d` is counted and a record at
`-7d - 1ms` is not. -/
theorem c6_witness :
    getItemsThisWeek 0 [⟨"a", none, none, .wrapper (-604800000)⟩] = 1 ∧
    getItemsThisWeek 0 [⟨"b", none, none, .wrapper (-604800001)⟩] = 0 :=
  ⟨c6_trailing_window.2.2.1 0 ⟨"a", none, none, .wrapper (-604800000)⟩ (by rfl),
    c6_trailing_window.2.2.2.1 0 ⟨"b", none, none, .wrapper (-604800001)⟩ (by rfl)⟩

/-! ### Helper lemmas for `getMostFrequent` -/

theorem pickMaxAux_eq (l : List (String × Nat)) :
    ∀ (best : Option String) (m : Nat),
    pickMaxAux l best m =
      if m < maxCountOf l then
        Option.map Prod.fst (l.find? (fun p => decide (maxCountOf l ≤ p.2)))
      else best := by
  induction l with
  | nil =>
    intro best m
    simp [pickMaxAux, maxCountOf]
  | cons e rest ih =>
    obtain ⟨k, c⟩ := e
    intro best m
    have hmax : maxCountOf ((k, c) :: rest) = max c (maxCountOf rest) := rfl
    by_cases h1 : m < c
    · have hstep : pickMaxAux ((k, c) :: rest) best m = pickMaxAux rest (some k) c := by
        simp [pickMaxAux, h1]
      rw [hstep, ih (some k) c, hmax]
      by_cases h2 : c < maxCountOf rest
      · have hMr : max c (maxCountOf rest) = maxCountOf rest := max_eq_right (le_of_lt h2)
        have hcond : m < max c (maxCountOf rest) := lt_of_lt_of_le h1 (le_max_left _ _)
        rw [if_pos h2, if_pos hcond, hMr]
        have hhead : ¬ (fun p : String × Nat => decide (maxCountOf rest ≤ p.2)) (k, c) = true := by
          simp only [decide_eq_true_eq]
          omega
        have hfind : List.find? (fun p : String × Nat => decide (maxCountOf rest ≤ p.2))
            ((k, c) :: rest) =
            List.find? (fun p : String × Nat => decide (maxCountOf rest ≤ p.2)) rest :=
          List.find?_cons_of_neg _ hhead
        rw [hfind]
      · have hMc : max c (maxCountOf rest) = c := max_eq_left (le_of_not_lt h2)
        have hcond : m < max c (maxCountOf rest) := lt_of_lt_of_le h1 (le_max_left _ _)
        rw [if_neg h2, if_pos hcond, hMc]
        have hhead : (fun p : String × Nat => decide (c ≤ p.2)) (k, c) = true := by simp
        have hfind : List.find? (fun p : String × Nat => decide (c ≤ p.2)) ((k, c) :: rest) =
            some (k, c) := List.find?_cons_of_pos _ hhead
        rw [hfind]
        rfl
    · have hstep : pickMaxAux ((k, c) :: rest) best m = pickMaxAux rest best m := by
        simp [pickMaxAux, h1]
      rw [hstep, ih best m, hmax]
      by_cases h2 : m < maxCountOf rest
      · have hMr : max c (maxCountOf rest) = maxCountOf rest := max_eq_right (by omega)
        have hcond : m < max c (maxCountOf rest) := by
          rw [hMr]
          exact h2
        rw [if_pos h2, if_pos hcond, hMr]
        have hhead : ¬ (fun p : String × Nat => decide (maxCountOf rest ≤ p.2)) (k, c) = true := by
          simp only [decide_eq_true_eq]
          omega
        have hfind : List.find? (fun p : String × Nat => decide (maxCountOf rest ≤ p.2))
            ((k, c) :: rest) =
            List.find? (fun p : String × Nat => decide (maxCountOf rest ≤ p.2)) rest :=
          List.find?_cons_of_neg _ hhead
        rw [hfind]
      · have hcond : ¬ m < max c (maxCountOf rest) := by
          rw [lt_max_iff]
          push_neg
          exact ⟨le_of_not_lt h1, le_of_not_lt h2⟩
        rw [if_neg h2, if_neg hcond]

theorem bump_counts_pos {acc : List (String × Nat)} {k : String}
    (h : ∀ p ∈ acc, 1 ≤ p.2) : ∀ p ∈ bump acc k, 1 ≤ p.2 := by
  induction acc with
  | nil =>
    intro p hp
    simp [bump] at hp
    subst hp
    simp
  | cons e rest ih =>
    obtain ⟨k', c⟩ := e
    intro p hp
    by_cases he : k' = k
    · rw [show bump ((k', c) :: rest) k = (k', c + 1) :: rest from by simp [bump, he]] at hp
      rcases List.mem_cons.mp hp with hp | hp
      · rw [hp]
        simp
      · exact h p (List.mem_cons_of_mem _ hp)
    · rw [show bump ((k', c) :: rest) k = (k', c) :: bump rest k from by simp [bump, he]] at hp
      rcases List.mem_cons.mp hp with hp | hp
      · rw [hp]
        exact h (k', c) (List.mem_cons_self _ _)
      · exact ih (fun q hq => h q (List.mem_cons_of_mem _ hq)) p hp

theorem tallyField_counts_pos (vals : List (Option String)) :
    ∀ p ∈ tallyField vals, 1 ≤ p.2 := by
  have haux : ∀ (l : List (Option String)) (acc : List (String × Nat)),
      (∀ p ∈ acc, 1 ≤ p.2) →
      ∀ p ∈ l.foldl (fun acc v =>
        match v with
        | some s => if s = "" then acc else bump acc s
        | none => acc) acc, 1 ≤ p.2 := by
    intro l
    induction l with
    | nil => intro acc hacc p hp; exact hacc p hp
    | cons v rest ih =>
      intro acc hacc p hp
      rcases v with _ | s
      · exact ih acc hacc p hp
      · by_cases hs : s = ""
        · simp only [List.foldl_cons, hs, if_pos rfl] at hp
          exact ih acc hacc p hp
        · simp only [List.foldl_cons, if_neg hs] at hp
          exact ih (bump acc s) (bump_counts_pos hacc) p hp
  intro p hp
  exact haux vals [] (by simp) p hp

theorem mem_of_mem_jsEntries {t : List (String × Nat)} {p : String × Nat}
    (h : p ∈ jsEntries t) : p ∈ t := by
  rcases List.mem_append.mp h with h | h
  · exact (List.mem_filter.mp ((List.mem_insertionSort entryNumLe).mp h)).1
  · exact (List.mem_filter.mp h).1

theorem le_maxCountOf_of_mem {l : List (String × Nat)} {p : String × Nat} (h : p ∈ l) :
    p.2 ≤ maxCountOf l := by
  induction l with
  | nil => simp at h
  | cons e rest ih =>
    rcases List.mem_cons.mp h with h | h
    · rw [h]
      exact le_max_left _ _
    · exact le_trans (ih h) (le_max_right _ _)

theorem jsEntries_singleton (e : String × Nat) : jsEntries [e] = [e] := by
  by_cases h : isArrayIndexKey e.1 = true
  · simp [jsEntries, h, List.insertionSort]
  · rw [Bool.not_eq_true] at h
    simp [jsEntries, h]

theorem tallyField_all_same (v : String) (hv : v ≠ "") :
    ∀ (l : List (Option String)), (∀ x ∈ l, x = some v) → l ≠ [] →
    tallyField l = [(v, l.length)] := by
  have haux : ∀ (l : List (Option String)) (k : Nat), (∀ x ∈ l, x = some v) →
      l.foldl (fun acc w =>
        match w with
        | some s => if s = "" then acc else bump acc s
        | none => acc) [(v, k)] = [(v, k + l.length)] := by
    intro l
    induction l with
    | nil => intro k _; simp
    | cons x rest ih =>
      intro k hall
      have hx : x = some v := hall x (List.mem_cons_self _ _)
      subst hx
      have hrest : ∀ y ∈ rest, y = some v := fun y hy => hall y (List.mem_cons_of_mem _ hy)
      have hbump : bump [(v, k)] v = [(v, k + 1)] := by simp [bump]
      have harith : k + 1 + rest.length = k + (rest.length + 1) := by omega
      simp only [List.foldl_cons, if_neg hv, hbump, ih (k + 1) hrest, List.length_cons, harith]
  intro l hall hne
  rcases l with _ | ⟨x, rest⟩
  · exact absurd rfl hne
  · have hx : x = some v := hall x (List.mem_cons_self _ _)
    subst hx
    have hrest : ∀ y ∈ rest, y = some v := fun y hy => hall y (List.mem_cons_of_mem _ hy)
    have hbump : bump [] v = [(v, 1)] := rfl
    have harith : 1 + rest.length = rest.length + 1 := by omega
    simp only [tallyField, List.foldl_cons, if_neg hv, hbump, haux rest 1 hrest,
      List.length_cons, harith]

theorem tallyField_all_missing :
    ∀ (l : List (Option String)), (∀ x ∈ l, x = none ∨ x = some "") → tallyField l = [] := by
  have haux : ∀ (l : List (Option String)) (acc : List (String × Nat)),
      (∀ x ∈ l, x = none ∨ x = some "") →
      l.foldl (fun acc w =>
        match w with
        | some s => if s = "" then acc else bump acc s
        | none => acc) acc = acc := by
    intro l
    induction l with
    | nil => intro acc _; rfl
    | cons x rest ih =>
      intro acc hall
      have hrest : ∀ y ∈ rest, y = none ∨ y = some "" :=
        fun y hy => hall y (List.mem_cons_of_mem _ hy)
      rcases hall x (List.mem_cons_self _ _) with hx | hx
      · subst hx
        simp only [List.foldl_cons]
        exact ih acc hrest
      · subst hx
        simp only [List.foldl_cons, if_pos rfl]
        exact ih acc hrest
  intro l hall
  exact haux l [] hall

/-! ### Claim C7 -/

/-- Claim C7, corrected (amended form).  `getMostFrequent` returns null
on an empty collection and on one where every record lacks the field
(or has an empty-string value); when every record shares the same truthy
field value it returns that value, with its tally equal to the record
count; and in general it returns the first key attaining the maximal
count in `Object.entries` enumeration order of the tally object —
integer-like string keys enumerate first in ascending numeric order,
all other keys in first-encounter order, so first-encountered-wins holds
exactly when no tallied value is an integer-like string. -/
theorem c7_most_frequent :
    (∀ (α : Type) (f : α → Option String), getMostFrequent ([] : List α) f = none) ∧
    (∀ (α : Type) (items : List α) (f : α → Option String),
      (∀ x ∈ items, f x = none ∨ f x = some "") → getMostFrequent items f = none) ∧
    (∀ (α : Type) (items : List α) (f : α → Option String) (v : String),
      v ≠ "" → items ≠ [] → (∀ x ∈ items, f x = some v) →
      getMostFrequent items f = some v ∧
        tallyField (items.map f) = [(v, items.length)]) ∧
    (∀ (α : Type) (items : List α) (f : α → Option String),
      getMostFrequent items f =
        Option.map Prod.fst ((jsEntries (tallyField (items.map f))).find?
          (fun p => decide (maxCountOf (jsEntries (tallyField (items.map f))) ≤ p.2)))) ∧
    (∀ t : List (String × Nat), (∀ p ∈ t, isArrayIndexKey p.1 = false) → jsEntries t = t) := by
  refine ⟨?_, ?_, ?_, ?_, ?_⟩
  · intro α f
    rfl
  · intro α items f hall
    have hmapped : ∀ x ∈ items.map f, x = none ∨ x = some "" := by
      intro x hx
      rcases List.mem_map.mp hx with ⟨a, ha, rfl⟩
      exact hall a ha
    have htal := tallyField_all_missing (items.map f) hmapped
    simp [getMostFrequent, htal, jsEntries, pickMaxAux]
  · intro α items f v hv hne hall
    have hmapall : ∀ x ∈ items.map f, x = some v := by
      intro x hx
      rcases List.mem_map.mp hx with ⟨a, ha, rfl⟩
      exact hall a ha
    have hmapne : items.map f ≠ [] := by simp [hne]
    have htal : tallyField (items.map f) = [(v, (items.map f).length)] :=
      tallyField_all_same v hv _ hmapall hmapne
    have hlen : (items.map f).length = items.length := List.length_map _ _
    constructor
    · have hpos : 0 < items.length := List.length_pos.mpr hne
      simp only [getMostFrequent, htal, hlen, jsEntries_singleton]
      simp [pickMaxAux, hpos]
    · rw [htal, hlen]
  · intro α items f
    have hchar := pickMaxAux_eq (jsEntries (tallyField (items.map f))) none 0
    by_cases h : 0 < maxCountOf (jsEntries (tallyField (items.map f)))
    · simp only [getMostFrequent]
      rw [hchar, if_pos h]
    · have hnil : jsEntries (tallyField (items.map f)) = [] := by
        rcases hcase : jsEntries (tallyField (items.map f)) with _ | ⟨p, rest⟩
        · rfl
        · exfalso
          have hp : p ∈ jsEntries (tallyField (items.map f)) := by
            rw [hcase]
            exact List.mem_cons_self _ _
          have h1 : 1 ≤ p.2 := tallyField_counts_pos _ p (mem_of_mem_jsEntries hp)
          have h2 : p.2 ≤ maxCountOf (jsEntries (tallyField (items.map f))) :=
            le_maxCountOf_of_mem hp
          omega
      simp [getMostFrequent, hnil, pickMaxAux]
  · intro t hall
    have h1 : t.filter (fun p => isArrayIndexKey p.1) = [] := by
      refine List.filter_eq_nil_iff.mpr ?_
      intro a ha
      simp [hall a ha]
    have h2 : t.filter (fun p => !isArrayIndexKey p.1) = t := by
      refine List.filter_eq_self.mpr ?_
      intro a ha
      simp [hall a ha]
    simp [jsEntries, h1, h2, List.insertionSort]

/-- Claim C7, counterexample to the claim as stated: with field values
`"2"` then `"1"` (one occurrence each — a tie), the first-encountered
key is `"2"`, but `Object.entries` enumerates the integer-like keys in
ascending numeric order, so the code returns `"1"`: the tie-break is
not first-encountered-key-wins on integer-like keys. -/
theorem c7_counterexample :
    getMostFrequent ([some "2", some "1"] : List (Option String)) id = some "1" ∧
    specMostFrequentFirstEncounter [some "2", some "1"] = some "2" ∧
    tallyField (([some "2", some "1"] : List (Option String)).map id) =
      [("2", 1), ("1", 1)] := by
  exact ⟨rfl, rfl, rfl⟩

/-- Claim C7, witness: the amended theorem's branches at concrete
inputs — empty input, all-missing input, an all-same input (tally equals
the record count), and a tally with no integer-like keys enumerating in
first-encounter order. -/
theorem c7_witness :
    getMostFrequent ([] : List (Option String)) id = none ∧
    getMostFrequent ([some "", none] : List (Option String)) id = none ∧
    (getMostFrequent ([some "books", some "books"] : List (Option String)) id = some "books" ∧
      tallyField (([some "books", some "books"] : List (Option String)).map id) =
        [("books", 2)]) ∧
    jsEntries [("books", 2), ("toys", 1)] = [("books", 2), ("toys", 1)] :=
  ⟨c7_most_frequent.1 (Option String) id,
    c7_most_frequent.2.1 (Option String) [some "", none] id (by decide),
    c7_most_frequent.2.2.1 (Option String) [some "books", some "books"] id "books"
      (by decide) (by decide) (by decide),
    c7_most_frequent.2.2.2.2 [("books", 2), ("toys", 1)] (by decide)⟩

/-! ### Claim C8 -/

theorem sorted_take_drop_rel {l : List StoredItem} (h : List.Sorted recentSortLe l) (n : Nat) :
    ∀ x ∈ l.take n, ∀ y ∈ l.drop n, sortKeyMs y ≤ sortKeyMs x := by
  have hsplit : l.take n ++ l.drop n = l := List.take_append_drop n l
  rw [← hsplit] at h
  have hp := List.pairwise_append.mp h
  intro x hx y hy
  exact hp.2.2 x hx y hy

/-- Claim C8, corrected (amended form).  The recent-activity window is
the first 7 records of a stable descending sort of the user's records by
`sortKeyMs` — the key that is the instant of a store-wrapper timestamp
and epoch zero for every other representation (native date, ISO string,
absent, malformed), which therefore all sink to the bottom together:
the sorted list is a permutation of the input, sorted descending by that
key; the window has length `min 7 n`, is drawn from the input, and
dominates (by that key) everything it excludes. -/
theorem c8_recent_window :
    (∀ items : List StoredItem, List.Sorted recentSortLe (sortItemsDesc items)) ∧
    (∀ items : List StoredItem, (sortItemsDesc items).Perm items) ∧
    (∀ items : List StoredItem, (recentWindow items).length = min 7 items.length) ∧
    (∀ (items : List StoredItem) (x y : StoredItem),
      x ∈ recentWindow items → y ∈ (sortItemsDesc items).drop 7 →
      sortKeyMs y ≤ sortKeyMs x) ∧
    (∀ (items : List StoredItem) (x : StoredItem), x ∈ recentWindow items → x ∈ items) ∧
    (∀ it : StoredItem,
      (∀ ms, it.createdAt = .wrapper ms → sortKeyMs it = ms) ∧
      ((∀ ms, it.createdAt ≠ .wrapper ms) → sortKeyMs it = 0)) := by
  refine ⟨?_, ?_, ?_, ?_, ?_, ?_⟩
  · intro items
    exact List.sorted_insertionSort recentSortLe items
  · intro items
    exact List.perm_insertionSort recentSortLe items
  · intro items
    simp [recentWindow, sortItemsDesc, List.length_take, List.length_insertionSort]
  · intro items x y hx hy
    exact sorted_take_drop_rel (List.sorted_insertionSort recentSortLe items) 7 x hx y hy
  · intro items x hx
    have hmem : x ∈ sortItemsDesc items := List.take_subset 7 _ hx
    exact (List.perm_insertionSort recentSortLe items).mem_iff.mp hmem
  · intro it
    constructor
    · intro ms h
      simp [sortKeyMs, h]
    · intro h
      rcases hc : it.createdAt with ms | ms | ms | _
      · exact absurd hc (h ms)
      · simp [sortKeyMs, hc]
      · simp [sortKeyMs, hc]
      · simp [sortKeyMs, hc]

/-- Claim C8, counterexample to the claim as stated: an item whose
`createdAt` is a valid ISO string at instant 1000000 is more recent than
an item whose `createdAt` is a store-wrapper timestamp at instant 500,
so under the claim's normalization (ISO strings normalize to their
instant) the window would list the ISO item first; the code's sort key
maps the ISO string to epoch zero instead, and the window lists the
wrapper item first. -/
theorem c8_counterexample :
    recentWindow [⟨"a", none, none, .isoString 1000000⟩, ⟨"b", none, none, .wrapper 500⟩] =
      [⟨"b", none, none, .wrapper 500⟩, ⟨"a", none, none, .isoString 1000000⟩] ∧
    specRecentWindow [⟨"a", none, none, .isoString 1000000⟩, ⟨"b", none, none, .wrapper 500⟩] =
      [⟨"a", none, none, .isoString 1000000⟩, ⟨"b", none, none, .wrapper 500⟩] ∧
    specNormalizeTimestamp (CreatedAt.isoString 1000000) = 1000000 ∧
    sortKeyMs ⟨"a", none, none, .isoString 1000000⟩ = 0 ∧
    (500 : Int) < 1000000 := by
  exact ⟨rfl, rfl, rfl, rfl, by decide⟩

/-- Claim C8, witness: the amended theorem at the concrete two-item
history — the window is drawn from the input and the ISO-string item's
sort key is epoch zero. -/
theorem c8_witness :
    (⟨"b", none, none, .wrapper 500⟩ : StoredItem) ∈
      ([⟨"a", none, none, .isoString 1000000⟩, ⟨"b", none, none, .wrapper 500⟩] :
        List StoredItem) ∧
    sortKeyMs ⟨"a", none, none, .isoString 1000000⟩ = 0 :=
  ⟨c8_recent_window.2.2.2.2.1
      [⟨"a", none, none, .isoString 1000000⟩, ⟨"b", none, none, .wrapper 500⟩]
      ⟨"b", none, none, .wrapper 500⟩ (by decide),
    (c8_recent_window.2.2.2.2.2 ⟨"a", none, none, .isoString 1000000⟩).2
      (fun ms h => CreatedAt.noConfusion h)⟩
